import Mathlib

/-!
Shallow embedding of the report-generation pipeline of `bot.py`
(`analyze_excel` and `format_sales_report`) from the
`excel_analytics_tg_botik` repository.

A spreadsheet is modelled as a grid of cells.  A cell is either a string,
a (rational) number, or missing (`pandas` `NaN`).  Machine floats are
modelled as rationals; `round(2)` is round-half-to-even at two decimals.
-/

inductive Cell where
  | str (s : String)
  | num (q : ℚ)
  | empty
deriving DecidableEq, Repr

/-! ### String helpers (kernel-computable models of the Python string ops) -/

/-- `s.lower()` (ASCII case folding, which covers every name compared). -/
def lowerStr (s : String) : String := String.mk (s.data.map Char.toLower)

def wsChar (c : Char) : Bool :=
  c == ' ' || c == '\t' || c == '\n' || c == '\r' || c == '\x0b' || c == '\x0c'

/-- `s.strip()`: drop whitespace on both ends. -/
def trimStr (s : String) : String :=
  String.mk (((s.data.dropWhile wsChar).reverse.dropWhile wsChar).reverse)

def startsWithL : List Char → List Char → Bool
  | _, [] => true
  | [], _ :: _ => false
  | c :: cs, p :: ps => c == p && startsWithL cs ps

/-- Substring containment on character lists. -/
def containsSub (hay pat : List Char) : Bool :=
  (List.range (hay.length + 1)).any (fun i => startsWithL (hay.drop i) pat)

/-- `str.replace(pat, rep)` (all non-overlapping occurrences, left to right),
with explicit fuel; `fuel = length of the text` suffices for non-empty `pat`. -/
def replaceFuel : Nat → List Char → List Char → List Char → List Char
  | 0, cs, _, _ => cs
  | Nat.succ n, cs, pat, rep =>
    match cs with
    | [] => []
    | c :: rest =>
      if startsWithL cs pat then rep ++ replaceFuel n (cs.drop pat.length) pat rep
      else c :: replaceFuel n rest pat rep

def replaceStr (s pat rep : String) : String :=
  String.mk (replaceFuel s.data.length s.data pat.data rep.data)

/-- `sep.join(parts)`. -/
def joinSep (sep : String) : List String → String
  | [] => ""
  | [x] => x
  | x :: y :: rest => x ++ sep ++ joinSep sep (y :: rest)

/-- Python `f"{s:<w}"`: left-align, pad on the right with spaces up to width
`w`; strings longer than `w` are returned unchanged (no truncation). -/
def padTo (w : Nat) (s : String) : String :=
  s ++ String.mk (List.replicate (w - s.length) ' ')

/-! ### Numeric helpers -/

/-- Round-half-to-even to an integer (the rounding used by `round(2)` and
`f"{x:.2f}"` on the values occurring here). -/
def roundHalfEven (q : ℚ) : ℤ :=
  let f := ⌊q⌋
  if q - f < 1/2 then f
  else if 1/2 < q - f then f + 1
  else if f % 2 = 0 then f else f + 1

/-- `round(x, 2)`. -/
def round2 (q : ℚ) : ℚ := (roundHalfEven (q * 100) : ℚ) / 100

/-- Python `int(x)`: truncation toward zero. -/
def pyInt (q : ℚ) : ℤ := if 0 ≤ q then ⌊q⌋ else -⌊-q⌋

/-- Python `f"{x:.2f}"`: the value rounded to hundredths, rendered with a
sign, an integer part and exactly two fraction digits. -/
def fmt2 (q : ℚ) : String :=
  let c := roundHalfEven (q * 100)
  let a := c.natAbs
  (if c < 0 then "-" else "") ++ toString (a / 100) ++ "." ++
    String.mk [Nat.digitChar (a % 100 / 10), Nat.digitChar (a % 10)]

/-- Thousands separators: walking the reversed digit list, insert `' '`
after every third digit (unless the number ends there). -/
def thinSep : List Char → Nat → List Char
  | [], _ => []
  | [c], _ => [c]
  | c :: c' :: rest, 0 => c :: ' ' :: thinSep (c' :: rest) 2
  | c :: c' :: rest, Nat.succ n => c :: thinSep (c' :: rest) n

/-- Python `f"{x:,.2f}".replace(",", " ")`. -/
def fmtMoney (q : ℚ) : String :=
  let c := roundHalfEven (q * 100)
  let a := c.natAbs
  (if c < 0 then "-" else "") ++
    String.mk ((thinSep (toString (a / 100)).data.reverse 2).reverse) ++ "." ++
    String.mk [Nat.digitChar (a % 100 / 10), Nat.digitChar (a % 10)]

/-! ### Static configuration (verbatim from `bot.py`) -/

def PRIORITY_DRINKS : List String :=
  ["Espresso",
   "Double espresso decaffeinated",
   "Chocolate Truffle",
   "Sakura Latte",
   "Matcha Latte",
   "Berry RAF",
   "Kakao Banana",
   "Masala Tea Latte",
   "Cheese & Orange Latte",
   "Double cappuccino vegan",
   "Flat White",
   "Flat White decaffeinated",
   "Flat white vegan",
   "Latte",
   "Latte decaffeinated",
   "Latte vegan",
   "Ice latte",
   "Ice latte decaffeinated",
   "Espresso decaffeinated",
   "Ice latte vegan",
   "Espresso tonic",
   "Espresso tonic decaffeinated",
   "Bumblebee",
   "Doppio(double espresso)",
   "Americano",
   "Americano decaffeinated",
   "Cappuccino",
   "Cappuccino decaffeinated",
   "Cacao",
   "Hot chocolate",
   "Cappuccino vegan",
   "Double Americano",
   "Double cappuccino"]

/-- `{name.lower().strip() for name in PRIORITY_DRINKS}`. -/
def PRIORITY_DRINKS_LOWER : List String :=
  PRIORITY_DRINKS.map (fun n => trimStr (lowerStr n))

def ANCHOR : String := "Denumire marfa"

def QTYCOL : String := "Cantitate"

def REVCOL : String := "Suma cu TVA fără reducere"

def DATECOL : String := "Data"

/-- `required = ["Denumire marfa", "Cantitate", "Suma cu TVA fără reducere"]`. -/
def requiredCols : List String := [ANCHOR, QTYCOL, REVCOL]

def UNKNOWN_DATE : String := "неизвестна"

/-! ### Pipeline: header location, promotion, validation -/

/-- `"Denumire marfa" in df_raw.iloc[i].values`. -/
def rowHasAnchor (row : List Cell) : Bool :=
  row.any (fun c => c == Cell.str ANCHOR)

/-- The loop over `range(len(df_raw))` with `break` on first match. -/
def findHeaderRow : List (List Cell) → Option Nat
  | [] => none
  | row :: rest =>
    if rowHasAnchor row then some 0
    else (findHeaderRow rest).map (· + 1)

/-- Index of the column whose header cell equals `Cell.str label`
(first occurrence, mirroring label lookup on the promoted header row). -/
def colIdx : List Cell → String → Option Nat
  | [], _ => none
  | c :: rest, label =>
    if c = Cell.str label then some 0
    else (colIdx rest label).map (· + 1)

/-- The value of row `row` in the column labelled `label`. -/
def colVal (headers row : List Cell) (label : String) : Cell :=
  match colIdx headers label with
  | some i => row.getD i Cell.empty
  | none => Cell.empty

/-- Python `str(cell)` as far as the pipeline needs it. -/
def cellStr : Cell → String
  | Cell.str s => s
  | Cell.num q => toString q
  | Cell.empty => "nan"

/-- Numeric reading of a cell used by the aggregation sums (`NaN` is skipped
by pandas `sum`, i.e. contributes 0). -/
def cellNum : Cell → ℚ
  | Cell.num q => q
  | _ => 0

/-- `all(col in df.columns for col in required)`. -/
def requiredPresent (headers : List Cell) : Bool :=
  requiredCols.all (fun l => (colIdx headers l).isSome)

/-- Report-date extraction: if a `Data` column exists, take its first
non-missing value; try the (externally supplied) date parser on it, falling
back to `str(value).strip()`; otherwise the `"неизвестна"` sentinel. -/
def extractDate (parse : Cell → Option String) (headers : List Cell)
    (rows : List (List Cell)) : String :=
  if (colIdx headers DATECOL).isSome then
    match (rows.map (fun r => colVal headers r DATECOL)).filter
        (fun c => !(c == Cell.empty)) with
    | [] => UNKNOWN_DATE
    | v :: _ =>
      match parse v with
      | some d => d
      | none => trimStr (cellStr v)
  else UNKNOWN_DATE

/-! ### Pipeline: cleaning, classification, aggregation, ranking -/

/-- `.str.contains("Punga", na=False, case=False)`: case-insensitive
substring match on string cells, `False` on anything else. -/
def isExcluded : Cell → Bool
  | Cell.str s => containsSub (lowerStr s).data (lowerStr "Punga").data
  | _ => false

/-- `dropna(subset=["Denumire marfa"])` followed by the `"Punga"` filter. -/
def cleanRows (headers : List Cell) (rows : List (List Cell)) :
    List (List Cell) :=
  (rows.filter (fun r => !(colVal headers r ANCHOR == Cell.empty))).filter
    (fun r => !(isExcluded (colVal headers r ANCHOR)))

structure Record where
  name : Cell
  quantity : ℚ
  revenue : ℚ
deriving DecidableEq, Repr

def mkRecord (headers row : List Cell) : Record :=
  { name := colVal headers row ANCHOR
    quantity := cellNum (colVal headers row QTYCOL)
    revenue := cellNum (colVal headers row REVCOL) }

def recordsOf (headers : List Cell) (rows : List (List Cell)) : List Record :=
  (cleanRows headers rows).map (mkRecord headers)

/-- `df['Denumire marfa'].str.lower().str.strip().isin(PRIORITY_DRINKS_LOWER)`:
normalisation applies only to string cells, everything else is `False`. -/
def is_priority_cell : Cell → Bool
  | Cell.str s => PRIORITY_DRINKS_LOWER.contains (trimStr (lowerStr s))
  | _ => false

structure AggregateRow where
  name : Cell
  quantity : ℚ
  revenue : ℚ
  is_priority : Bool
deriving DecidableEq, Repr

/-- Distinct group keys in encounter order. -/
def groupKeys (recs : List Record) : List Cell :=
  (recs.map Record.name).dedup

/-- One output row of the `groupby`: the group of records whose name equals
the key exactly, with quantity and revenue summed and rounded to two
decimals (`.round(2)`) and the priority flag `any`-ed over the group. -/
def aggRow (recs : List Record) (k : Cell) : AggregateRow :=
  let grp := recs.filter (fun r => r.name == k)
  { name := k
    quantity := round2 ((grp.map Record.quantity).sum)
    revenue := round2 ((grp.map Record.revenue).sum)
    is_priority := grp.any (fun r => is_priority_cell r.name) }

/-- `groupby("Denumire marfa").agg(sum, sum, any).round(2)`: grouping is by
the exact cell value. -/
def aggregate (recs : List Record) : List AggregateRow :=
  (groupKeys recs).map (aggRow recs)

/-- `sort_values(['is_priority', 'Сумма'], ascending=[False, False])`:
`a` may come before `b` iff `a` wins on the lexicographic descending key. -/
def RankLE (a b : AggregateRow) : Prop :=
  (a.is_priority = true ∧ b.is_priority = false) ∨
  (a.is_priority = b.is_priority ∧ b.revenue ≤ a.revenue)

instance : DecidableRel RankLE := fun a b => by
  unfold RankLE
  infer_instance

instance : IsTotal AggregateRow RankLE where
  total a b := by
    unfold RankLE
    rcases ha : a.is_priority <;> rcases hb : b.is_priority <;>
      rcases le_total a.revenue b.revenue with h | h <;> tauto

instance : IsTrans AggregateRow RankLE where
  trans a b c hab hbc := by
    unfold RankLE at *
    rcases hab with ⟨h1, h2⟩ | ⟨h1, h2⟩ <;>
      rcases hbc with ⟨h3, h4⟩ | ⟨h3, h4⟩
    · exact Or.inl ⟨h1, h4⟩
    · exact Or.inl ⟨h1, h3 ▸ h2⟩
    · exact Or.inl ⟨h1 ▸ h3, h4⟩
    · exact Or.inr ⟨h1.trans h3, h4.trans h2⟩

def rankReport (rows : List AggregateRow) : List AggregateRow :=
  List.insertionSort RankLE rows

inductive AnalyzeError where
  | headerNotFound
  | missingColumns (found : List Cell)
deriving DecidableEq, Repr

/-- `analyze_excel`, from the raw grid to the report date and the ranked
report (the `is_priority` column is kept here; `result_for_save` drops it,
see `toSave`).  The date parser (`pd.to_datetime`) is an external
collaborator and is passed in as a function. -/
def analyze_excel (parse : Cell → Option String) (grid : List (List Cell)) :
    Except AnalyzeError (String × List AggregateRow) :=
  match findHeaderRow grid with
  | none => Except.error AnalyzeError.headerNotFound
  | some i =>
    let headers := (grid.drop i).headD []
    let rows := (grid.drop i).drop 1
    let report_date := extractDate parse headers rows
    if requiredPresent headers then
      Except.ok (report_date, rankReport (aggregate (recordsOf headers rows)))
    else
      Except.error (AnalyzeError.missingColumns headers)

/-! ### Report renderer (`format_sales_report`) -/

structure SaveRow where
  name : Cell
  quantity : ℚ
  revenue : ℚ
deriving DecidableEq, Repr

/-- `result_for_save = result.drop(columns=['is_priority'])`. -/
def toSave (a : AggregateRow) : SaveRow :=
  { name := a.name, quantity := a.quantity, revenue := a.revenue }

/-- The renderer recomputes the coffee classification from the name. -/
def coffeeItems (items : List SaveRow) : List SaveRow :=
  items.filter (fun r => is_priority_cell r.name)

def totalRevenue (items : List SaveRow) : ℚ := (items.map SaveRow.revenue).sum

def coffeeRevenue (items : List SaveRow) : ℚ :=
  ((coffeeItems items).map SaveRow.revenue).sum

def coffeeCount (items : List SaveRow) : ℚ :=
  ((coffeeItems items).map SaveRow.quantity).sum

/-- The fixed rename table (first matching row wins, as in the `for`/`break`
loop). -/
def renameTable : List (String × String) :=
  [("double espresso decaffeinated", "double espresso decaf"),
   ("flat white decaffeinated", "flat white decaf"),
   ("latte decaffeinated", "latte decaf"),
   ("ice latte decaffeinated", "ice latte decaf"),
   ("espresso decaffeinated", "espresso decaf"),
   ("americano decaffeinated", "americano decaf"),
   ("cappuccino decaffeinated", "cappuccino decaf"),
   ("doppio(double espresso)", "doppio"),
   ("double cappuccino vegan", "double cappuccino vegan"),
   ("flat white vegan", "flat white vegan"),
   ("latte vegan", "latte vegan"),
   ("ice latte vegan", "ice latte vegan"),
   ("cappuccino vegan", "cappuccino vegan")]

def applyRename (s : String) : String :=
  match renameTable.find? (fun p => p.1 == s) with
  | some p => p.2
  | none => s

/-- The display name used in the composition string. -/
def displayName (c : Cell) : String :=
  trimStr (replaceStr (replaceStr (replaceStr
    (applyRename (lowerStr (cellStr c))) "(" "") ")" "") "  " " ")

/-- `f"{int(row['Количество'])} {clean_name}"`. -/
def compositionPart (r : SaveRow) : String :=
  toString (pyInt r.quantity) ++ " " ++ displayName r.name

def composition (items : List SaveRow) : String :=
  joinSep " + " ((coffeeItems items).map compositionPart)

/-- One line of the fixed-width table:
`f"{name:<40} {qty:<12} {amt}\n"` with `qty`/`amt` already `:.2f`. -/
def tableLine (r : SaveRow) : String :=
  padTo 40 (cellStr r.name) ++ " " ++ padTo 12 (fmt2 r.quantity) ++ " " ++
    fmt2 r.revenue ++ "\n"

def tableBlock (items : List SaveRow) : String :=
  String.join (items.map tableLine)

/-- The summary lines before the coffee-count line. -/
def summaryTop (report_date : String) (items : List SaveRow) : String :=
  "📅 Дата отчёта: " ++ report_date ++ "\n" ++
  "💰 Общая выручка за день: " ++ fmtMoney (totalRevenue items) ++ " лей\n" ++
  "☕ Выручка от кофейных напитков: " ++ fmtMoney (coffeeRevenue items) ++ " лей\n"

/-- `f"🔢 Всего продано кофейных напитков: {int(coffee_count)} шт.\n"`. -/
def countLine (items : List SaveRow) : String :=
  "🔢 Всего продано кофейных напитков: " ++
    toString (pyInt (coffeeCount items)) ++ " шт.\n"

/-- Everything between the count line and the table body. -/
def summaryRest (items : List SaveRow) : String :=
  (if composition items = "" then ""
   else "ℹ️  Состав: " ++ composition items ++ "\n") ++
  "🍱 Выручка от остального: " ++
    fmtMoney (totalRevenue items - coffeeRevenue items) ++ " лей\n" ++
  "\n📊 Отчёт по продажам:\n" ++
  padTo 40 "Denumire marfa" ++ " " ++ padTo 12 "Количество" ++ " " ++
    "Сумма" ++ "\n" ++
  String.mk (List.replicate 64 '─') ++ "\n"

def format_sales_report (report_date : String) (items : List SaveRow) : String :=
  summaryTop report_date items ++ countLine items ++ summaryRest items ++
    tableBlock items

/-! ### Structural lemmas about the pipeline -/

lemma colIdx_isSome_iff (hs : List Cell) (l : String) :
    (colIdx hs l).isSome = true ↔ Cell.str l ∈ hs := by
  induction hs with
  | nil => simp [colIdx]
  | cons c rest ih =>
    by_cases h : c = Cell.str l
    · subst h
      simp [colIdx]
    · simp [colIdx, h, Option.isSome_map, ih, Ne.symm h]

lemma requiredPresent_iff (hs : List Cell) :
    requiredPresent hs = true ↔ ∀ l ∈ requiredCols, Cell.str l ∈ hs := by
  simp [requiredPresent, List.all_eq_true, colIdx_isSome_iff]

lemma rowHasAnchor_iff (row : List Cell) :
    rowHasAnchor row = true ↔ Cell.str ANCHOR ∈ row := by
  simp [rowHasAnchor, List.any_eq_true]

lemma findHeaderRow_eq_none_iff (grid : List (List Cell)) :
    findHeaderRow grid = none ↔ ∀ row ∈ grid, rowHasAnchor row = false := by
  induction grid with
  | nil => simp [findHeaderRow]
  | cons row rest ih =>
    by_cases h : rowHasAnchor row = true
    · simp [findHeaderRow, h]
    · have h' : rowHasAnchor row = false := Bool.eq_false_iff.mpr h
      simp [findHeaderRow, h', Option.map_eq_none', ih, List.forall_mem_cons]

lemma findHeaderRow_first (grid : List (List Cell)) (i : Nat)
    (h : findHeaderRow grid = some i) :
    ∃ hlen : i < grid.length, rowHasAnchor (grid.get ⟨i, hlen⟩) = true ∧
      ∀ j (hj : j < grid.length), j < i → rowHasAnchor (grid.get ⟨j, hj⟩) = false := by
  induction grid generalizing i with
  | nil => simp [findHeaderRow] at h
  | cons row rest ih =>
    simp only [findHeaderRow] at h
    by_cases hrow : rowHasAnchor row = true
    · rw [if_pos hrow] at h
      injection h with h0
      subst h0
      refine ⟨Nat.succ_pos _, by simpa using hrow, ?_⟩
      intro j hj hj0
      exact absurd hj0 (Nat.not_lt_zero j)
    · rw [if_neg hrow] at h
      cases hrest : findHeaderRow rest with
      | none => rw [hrest] at h; simp at h
      | some i' =>
        rw [hrest] at h
        simp only [Option.map_some'] at h
        injection h with h1
        subst h1
        rcases ih i' hrest with ⟨hlen, hget, hbefore⟩
        refine ⟨Nat.succ_lt_succ hlen, by simpa using hget, ?_⟩
        intro j hj hjlt
        cases j with
        | zero => simpa using Bool.eq_false_iff.mpr hrow
        | succ j' =>
          have hj'' : j' < rest.length := Nat.lt_of_succ_lt_succ hj
          have := hbefore j' hj'' (Nat.lt_of_succ_lt_succ hjlt)
          simpa using this

lemma analyze_headerNotFound_iff (parse : Cell → Option String)
    (grid : List (List Cell)) :
    analyze_excel parse grid = Except.error AnalyzeError.headerNotFound ↔
      findHeaderRow grid = none := by
  unfold analyze_excel
  cases hf : findHeaderRow grid with
  | none => simp
  | some i =>
    simp only []
    split <;> simp

lemma analyze_ok_shape (parse : Cell → Option String) (grid : List (List Cell))
    (d : String) (rr : List AggregateRow)
    (h : analyze_excel parse grid = Except.ok (d, rr)) :
    ∃ i, findHeaderRow grid = some i ∧
      requiredPresent ((grid.drop i).headD []) = true ∧
      d = extractDate parse ((grid.drop i).headD []) ((grid.drop i).drop 1) ∧
      rr = rankReport (aggregate (recordsOf ((grid.drop i).headD [])
            ((grid.drop i).drop 1))) := by
  unfold analyze_excel at h
  cases hf : findHeaderRow grid with
  | none => rw [hf] at h; simp at h
  | some i =>
    rw [hf] at h
    dsimp only at h
    by_cases hreq : requiredPresent ((grid.drop i).headD []) = true
    · rw [if_pos hreq] at h
      have hpair := h
      simp only [Except.ok.injEq, Prod.mk.injEq] at hpair
      exact ⟨i, rfl, hreq, hpair.1.symm, hpair.2.symm⟩
    · rw [if_neg hreq] at h
      simp at h

lemma rankReport_sorted (rows : List AggregateRow) :
    (rankReport rows).Sorted RankLE :=
  List.sorted_insertionSort RankLE rows

lemma mem_rankReport (a : AggregateRow) (rows : List AggregateRow) :
    a ∈ rankReport rows ↔ a ∈ rows :=
  (List.perm_insertionSort RankLE rows).mem_iff

lemma any_const (l : List Record) (f : Record → Bool) (b : Bool) (hne : l ≠ [])
    (hconst : ∀ x ∈ l, f x = b) : l.any f = b := by
  induction l with
  | nil => exact absurd rfl hne
  | cons x xs ih =>
    simp only [List.any_cons]
    rw [hconst x (List.mem_cons_self x xs)]
    cases xs with
    | nil => simp
    | cons y ys =>
      rw [ih (by simp) (fun z hz => hconst z (List.mem_cons_of_mem x hz))]
      cases b <;> rfl

lemma aggregate_priority_eq (recs : List Record) (a : AggregateRow)
    (ha : a ∈ aggregate recs) : a.is_priority = is_priority_cell a.name := by
  unfold aggregate at ha
  rcases List.mem_map.mp ha with ⟨k, hk, rfl⟩
  dsimp only [aggRow]
  have hk' : k ∈ recs.map Record.name := List.mem_dedup.mp (by simpa [groupKeys] using hk)
  rcases List.mem_map.mp hk' with ⟨r, hr, hname⟩
  have hrg : r ∈ recs.filter (fun r' => r'.name == k) :=
    List.mem_filter.mpr ⟨hr, by simp [hname]⟩
  apply any_const _ _ _ (List.ne_nil_of_mem hrg)
  intro x hx
  have hx' : x.name = k := by
    have := (List.mem_filter.mp hx).2
    simpa using this
  rw [hx']

lemma sum_map_add (keys : List Cell) (f g : Cell → ℚ) :
    (keys.map (fun k => f k + g k)).sum = (keys.map f).sum + (keys.map g).sum := by
  induction keys with
  | nil => simp
  | cons k ks ih =>
    simp only [List.map_cons, List.sum_cons, ih]
    ring

lemma sum_map_ite_of_not_mem (keys : List Cell) (c : Cell) (x : ℚ) (hc : c ∉ keys) :
    (keys.map (fun k => if c = k then x else 0)).sum = 0 := by
  induction keys with
  | nil => simp
  | cons k ks ih =>
    have hne : c ≠ k := fun h => hc (h ▸ List.mem_cons_self k ks)
    simp [hne, ih (fun h => hc (List.mem_cons_of_mem k h))]

lemma sum_map_ite (keys : List Cell) (c : Cell) (x : ℚ) (hnd : keys.Nodup)
    (hc : c ∈ keys) :
    (keys.map (fun k => if c = k then x else 0)).sum = x := by
  induction keys with
  | nil => simp at hc
  | cons k ks ih =>
    rcases List.mem_cons.mp hc with rfl | hmem
    · have hnotin : c ∉ ks := (List.nodup_cons.mp hnd).1
      simp [sum_map_ite_of_not_mem ks c x hnotin]
    · have hne : c ≠ k := fun h => (List.nodup_cons.mp hnd).1 (h ▸ hmem)
      simp [hne, ih (List.nodup_cons.mp hnd).2 hmem]

lemma fiber_sum (recs : List Record) (keys : List Cell) (hnd : keys.Nodup)
    (hmem : ∀ r ∈ recs, r.name ∈ keys) :
    (keys.map
      (fun k => ((recs.filter (fun r' => r'.name == k)).map Record.quantity).sum)).sum
      = (recs.map Record.quantity).sum := by
  induction recs with
  | nil => simp
  | cons r rest ih =>
    have hfun : (fun k =>
          (((r :: rest).filter (fun r' => r'.name == k)).map Record.quantity).sum)
        = fun k => (if r.name = k then r.quantity else 0) +
            ((rest.filter (fun r' => r'.name == k)).map Record.quantity).sum := by
      funext k
      by_cases h : r.name = k
      · simp [List.filter_cons, h]
      · simp [List.filter_cons, h]
    rw [hfun, sum_map_add,
      sum_map_ite keys r.name r.quantity hnd (hmem r (List.mem_cons_self r rest)),
      ih (fun z hz => hmem z (List.mem_cons_of_mem r hz))]
    simp

lemma round2_eq_self (q : ℚ) (h : ∃ n : ℤ, q * 100 = (n : ℚ)) : round2 q = q := by
  rcases h with ⟨n, hn⟩
  unfold round2 roundHalfEven
  rw [hn, Int.floor_intCast]
  simp only [sub_self]
  rw [if_pos (by norm_num)]
  rw [← hn]
  ring

lemma digitChar_isDigit (n : Nat) (h : n < 10) : (Nat.digitChar n).isDigit = true := by
  interval_cases n <;> decide

/-! ### Concrete inputs used by the claim-level theorems -/

def noParse : Cell → Option String := fun _ => none

def hdrC2 : List Cell := [Cell.str ANCHOR, Cell.str QTYCOL, Cell.str REVCOL]

def rowsC2 : List (List Cell) :=
  [[Cell.str "Americano", Cell.num 1, Cell.num 10],
   [Cell.str "americano ", Cell.num 2, Cell.num 20]]

def gridC2 : List (List Cell) := hdrC2 :: rowsC2

/-! ### Claim C3 -/

/-- C3: the header locator returns the index of the first row (top to
bottom) in which some cell equals the exact, case-sensitive string
`"Denumire marfa"`, and `analyze_excel` fails with the header-not-found
error iff no row of the raw grid contains that value. -/
theorem C3_header_locator (parse : Cell → Option String)
    (grid : List (List Cell)) :
    (analyze_excel parse grid = Except.error AnalyzeError.headerNotFound ↔
      ∀ row ∈ grid, Cell.str ANCHOR ∉ row) ∧
    (∀ i, findHeaderRow grid = some i →
      ∃ hlen : i < grid.length, Cell.str ANCHOR ∈ grid.get ⟨i, hlen⟩ ∧
        ∀ j (hj : j < grid.length), j < i →
          Cell.str ANCHOR ∉ grid.get ⟨j, hj⟩) := by
  have hpt : ∀ row, rowHasAnchor row = false ↔ Cell.str ANCHOR ∉ row := by
    intro row
    constructor
    · intro h hmem
      have := (rowHasAnchor_iff row).mpr hmem
      rw [h] at this
      exact Bool.false_ne_true this
    · intro h
      exact Bool.eq_false_iff.mpr (fun ht => h ((rowHasAnchor_iff row).mp ht))
  constructor
  · rw [analyze_headerNotFound_iff, findHeaderRow_eq_none_iff]
    exact forall_congr' fun row => imp_congr_right fun _ => hpt row
  · intro i hi
    rcases findHeaderRow_first grid i hi with ⟨hlen, hget, hbefore⟩
    exact ⟨hlen, (rowHasAnchor_iff _).mp hget,
      fun j hj hjlt => (hpt _).mp (hbefore j hj hjlt)⟩

theorem C3_witness :
    analyze_excel noParse [[Cell.str "x"], [Cell.str "y", Cell.str "z"]] =
      Except.error AnalyzeError.headerNotFound :=
  (C3_header_locator noParse _).1.mpr (by decide)

/-! ### Claim C4 -/

/-- C4: after the located row is promoted to column headers,
`analyze_excel` fails with a missing-columns error carrying the columns
actually found iff one of the three required column labels is absent
(exact string match); otherwise the validated table flows unchanged into
cleaning, aggregation and ranking. -/
theorem C4_schema_validator (parse : Cell → Option String)
    (grid : List (List Cell)) (i : Nat) (hfind : findHeaderRow grid = some i)
    (headers : List Cell) (rows : List (List Cell))
    (hh : headers = (grid.drop i).headD []) (hr : rows = (grid.drop i).drop 1) :
    (analyze_excel parse grid =
        Except.error (AnalyzeError.missingColumns headers) ↔
      ¬ ∀ l ∈ requiredCols, Cell.str l ∈ headers) ∧
    ((∀ l ∈ requiredCols, Cell.str l ∈ headers) →
      analyze_excel parse grid =
        Except.ok (extractDate parse headers rows,
          rankReport (aggregate (recordsOf headers rows)))) := by
  subst hh hr
  unfold analyze_excel
  rw [hfind]
  dsimp only
  by_cases hreq : requiredPresent ((grid.drop i).headD []) = true
  · rw [if_pos hreq]
    have hmem := (requiredPresent_iff _).mp hreq
    exact ⟨iff_of_false (by simp) (not_not_intro hmem), fun _ => rfl⟩
  · rw [if_neg hreq]
    have hmem : ¬ ∀ l ∈ requiredCols, Cell.str l ∈ (grid.drop i).headD [] :=
      fun hc => hreq ((requiredPresent_iff _).mpr hc)
    exact ⟨iff_of_true rfl hmem, fun hc => absurd hc hmem⟩

theorem C4_witness :
    analyze_excel noParse gridC2 =
      Except.ok (extractDate noParse hdrC2 rowsC2,
        rankReport (aggregate (recordsOf hdrC2 rowsC2))) :=
  (C4_schema_validator noParse gridC2 0 (by decide) hdrC2 rowsC2 rfl rfl).2
    (by decide)

/-! ### Claim C6 -/

/-- C6 (amended): the row cleaner drops rows whose product-name cell is
missing (`NaN`), so no cleaned Record has a missing product name.  An
empty-string product name, however, is not missing and is not dropped. -/
theorem C6_no_missing_product_name (headers : List Cell)
    (rows : List (List Cell)) :
    ∀ r ∈ recordsOf headers rows, r.name ≠ Cell.empty := by
  intro r hr
  unfold recordsOf at hr
  rcases List.mem_map.mp hr with ⟨row, hrow, rfl⟩
  unfold cleanRows at hrow
  have h1 := (List.mem_filter.mp hrow).1
  have h2 := (List.mem_filter.mp h1).2
  intro hname
  have hval : colVal headers row ANCHOR = Cell.empty := hname
  rw [hval] at h2
  simp at h2

def rows6 : List (List Cell) := [[Cell.str "", Cell.num 1, Cell.num 2]]

/-- C6 counterexample: a raw row whose product-name cell holds the empty
string survives cleaning — the cleaner only drops missing cells, so a
cleaned Record with an empty product name exists. -/
theorem C6_counterexample :
    ∃ r ∈ recordsOf hdrC2 rows6, r.name = Cell.str "" := by
  have h1 : recordsOf hdrC2 rows6 =
      [{ name := Cell.str "", quantity := 1, revenue := 2 }] := by
    norm_num +decide [recordsOf, cleanRows, mkRecord, colVal, colIdx, cellNum,
      List.filter_cons, List.filter_nil, hdrC2, rows6, ANCHOR, QTYCOL, REVCOL]
  rw [h1]
  exact ⟨_, List.mem_singleton.mpr rfl, rfl⟩

theorem C6_witness :
    (mkRecord hdrC2 [Cell.str "Americano", Cell.num 1, Cell.num 10]).name ≠
      Cell.empty := by
  apply C6_no_missing_product_name hdrC2 rowsC2
  unfold recordsOf cleanRows
  simp +decide [List.filter_cons, List.filter_nil, rowsC2]

/-! ### Claim C5 -/

lemma map_congr_mem {l : List Cell} {f g : Cell → ℚ}
    (h : ∀ a ∈ l, f a = g a) : l.map f = l.map g := by
  induction l with
  | nil => rfl
  | cons a as ih =>
    simp only [List.map_cons, h a (List.mem_cons_self a as)]
    rw [ih (fun b hb => h b (List.mem_cons_of_mem a hb))]

/-- C5 (amended): every cleaned Record maps to exactly one AggregateRow;
and because each group total is rounded to 2 decimal places after summing,
the sum of `totalQuantity` over all groups equals the sum of `quantity`
over all cleaned Records provided every group total is a whole number of
hundredths (the rounding is the only source of discrepancy). -/
theorem C5_partition_conservation (recs : List Record) :
    (∀ r ∈ recs, ∃! a, a ∈ aggregate recs ∧ a.name = r.name) ∧
    ((∀ k ∈ groupKeys recs,
        ∃ n : ℤ,
          ((recs.filter (fun r' => r'.name == k)).map Record.quantity).sum * 100
            = (n : ℚ)) →
      ((aggregate recs).map AggregateRow.quantity).sum
        = (recs.map Record.quantity).sum) := by
  constructor
  · intro r hr
    have hkey : r.name ∈ groupKeys recs :=
      List.mem_dedup.mpr (List.mem_map.mpr ⟨r, hr, rfl⟩)
    refine ⟨aggRow recs r.name,
      ⟨List.mem_map.mpr ⟨r.name, hkey, rfl⟩, rfl⟩, ?_⟩
    rintro b ⟨hbmem, hbname⟩
    rcases List.mem_map.mp hbmem with ⟨k', hk', rfl⟩
    have hk'name : k' = r.name := hbname
    rw [hk'name]
  · intro hcent
    have h1 : (aggregate recs).map AggregateRow.quantity
        = (groupKeys recs).map (fun k =>
            round2 (((recs.filter (fun r' => r'.name == k)).map
              Record.quantity).sum)) := by
      unfold aggregate
      rw [List.map_map]
      rfl
    rw [h1]
    rw [map_congr_mem (fun k hk => round2_eq_self _ (hcent k hk))]
    exact fiber_sum recs (groupKeys recs) (List.nodup_dedup _)
      (fun r hr => List.mem_dedup.mpr (List.mem_map.mpr ⟨r, hr, rfl⟩))

def rows5 : List (List Cell) := [[Cell.str "X", Cell.num (1/200), Cell.num 0]]

/-- C5 counterexample: a single cleaned record of quantity 1/200 (half a
hundredth) is rounded away in its group total, so the summed
`totalQuantity` (0) differs from the summed cleaned quantity (1/200). -/
theorem C5_counterexample :
    ((aggregate (recordsOf hdrC2 rows5)).map AggregateRow.quantity).sum ≠
      ((recordsOf hdrC2 rows5).map Record.quantity).sum := by
  have h1 : recordsOf hdrC2 rows5 =
      [{ name := Cell.str "X", quantity := 1/200, revenue := 0 }] := by
    norm_num +decide [recordsOf, cleanRows, mkRecord, colVal, colIdx, cellNum,
      List.filter_cons, List.filter_nil, hdrC2, rows5, ANCHOR, QTYCOL, REVCOL]
  rw [h1]
  norm_num +decide [aggregate, aggRow, groupKeys, round2, roundHalfEven,
    List.filter_cons, List.filter_nil, List.dedup_cons_of_not_mem,
    List.dedup_nil]

def recsW : List Record := [{ name := Cell.str "Espresso", quantity := 3, revenue := 45 }]

theorem C5_witness :
    (∀ r ∈ recsW, ∃! a, a ∈ aggregate recsW ∧ a.name = r.name) ∧
    ((aggregate recsW).map AggregateRow.quantity).sum
      = (recsW.map Record.quantity).sum := by
  refine ⟨(C5_partition_conservation recsW).1,
    (C5_partition_conservation recsW).2 ?_⟩
  intro k hk
  have hk' : k = Cell.str "Espresso" := by
    simpa [groupKeys, recsW, List.dedup_cons_of_not_mem, List.dedup_nil] using hk
  subst hk'
  refine ⟨300, ?_⟩
  norm_num +decide [recsW, List.filter_cons, List.filter_nil]

/-! ### Claim C2 -/

/-- C2: classification lowercases and trims before the priority lookup,
while grouping uses the exact product-name string: for the two cleaned rows
`"Americano"` and `"americano "` both are classified priority, and the
aggregator keeps two distinct AggregateRows, each flagged priority. -/
theorem C2_normalize_vs_grouping :
    ((recordsOf hdrC2 rowsC2).map (fun r => is_priority_cell r.name)
      = [true, true]) ∧
    analyze_excel noParse gridC2 =
      Except.ok (UNKNOWN_DATE,
        [{ name := Cell.str "americano ", quantity := 2, revenue := 20,
           is_priority := true },
         { name := Cell.str "Americano", quantity := 1, revenue := 10,
           is_priority := true }]) := by
  constructor
  · norm_num +decide [recordsOf, cleanRows, mkRecord, colVal, colIdx, cellNum,
      List.filter_cons, List.filter_nil, hdrC2, rowsC2, ANCHOR, QTYCOL, REVCOL]
  · norm_num +decide [analyze_excel, findHeaderRow, rowHasAnchor, colIdx, colVal,
      extractDate, requiredPresent, requiredCols, recordsOf, cleanRows, mkRecord,
      cellNum, aggregate, aggRow, groupKeys, rankReport, RankLE, round2,
      roundHalfEven, List.insertionSort, List.orderedInsert,
      List.dedup_cons_of_mem, List.dedup_cons_of_not_mem, List.dedup_nil,
      List.filter_cons, List.filter_nil, List.any_cons, List.any_nil,
      ANCHOR, QTYCOL, REVCOL, DATECOL, UNKNOWN_DATE, gridC2, hdrC2, rowsC2,
      beq_iff_eq, List.getD, Option.map, Option.isSome]

/-! ### Claim C1 -/

def hdrSpec : List Cell :=
  [Cell.str ANCHOR, Cell.str QTYCOL, Cell.str REVCOL, Cell.str DATECOL]

def gridSpec : List (List Cell) :=
  [[Cell.str "meta"],
   [],
   hdrSpec,
   [Cell.str "Espresso", Cell.num 3, Cell.num 45, Cell.str "01.02.2024"],
   [Cell.str "Croissant", Cell.num 2, Cell.num 30, Cell.str "01.02.2024"]]

/-- A date parser that recognises exactly the one date used in the
scenario grid. -/
def ddmmParse : Cell → Option String := fun c =>
  match c with
  | Cell.str s => if s = "01.02.2024" then some "01.02.2024" else none
  | _ => none

def rankedSpec : List AggregateRow :=
  [{ name := Cell.str "Espresso", quantity := 3, revenue := 45,
     is_priority := true },
   { name := Cell.str "Croissant", quantity := 2, revenue := 30,
     is_priority := false }]

lemma analyze_gridSpec :
    analyze_excel ddmmParse gridSpec = Except.ok ("01.02.2024", rankedSpec) := by
  norm_num +decide [analyze_excel, findHeaderRow, rowHasAnchor, colIdx, colVal,
    extractDate, requiredPresent, requiredCols, recordsOf, cleanRows, mkRecord,
    cellNum, aggregate, aggRow, groupKeys, rankReport, RankLE, round2,
    roundHalfEven, List.insertionSort, List.orderedInsert,
    List.dedup_cons_of_mem, List.dedup_cons_of_not_mem, List.dedup_nil,
    List.filter_cons, List.filter_nil, List.any_cons, List.any_nil,
    ANCHOR, QTYCOL, REVCOL, DATECOL, UNKNOWN_DATE, gridSpec, hdrSpec,
    rankedSpec, ddmmParse, beq_iff_eq, List.getD, Option.map, Option.isSome]

/-- C1: in the RankedReport produced by `analyze_excel`, for every pair of
positions i < j the priority flag is non-increasing, and within equal
priority the (rounded) revenue is non-increasing. -/
theorem C1_priority_ordering (parse : Cell → Option String)
    (grid : List (List Cell)) (d : String) (rr : List AggregateRow)
    (h : analyze_excel parse grid = Except.ok (d, rr))
    (i j : Fin rr.length) (hij : i < j) :
    ((rr.get j).is_priority = true → (rr.get i).is_priority = true) ∧
    ((rr.get i).is_priority = (rr.get j).is_priority →
      (rr.get j).revenue ≤ (rr.get i).revenue) := by
  rcases analyze_ok_shape parse grid d rr h with ⟨i0, _, _, _, hrr⟩
  have hsorted : rr.Sorted RankLE := by
    rw [hrr]
    exact rankReport_sorted _
  have hrel := hsorted.rel_get_of_lt hij
  rcases hrel with ⟨hpi, hpj⟩ | ⟨heq, hrev⟩
  · constructor
    · intro hj
      rw [hpj] at hj
      exact absurd hj (by simp)
    · intro he
      rw [hpi, hpj] at he
      exact absurd he (by simp)
  · exact ⟨fun hj => heq.trans hj, fun _ => hrev⟩

theorem C1_witness :
    ((rankedSpec.get ⟨1, by simp [rankedSpec]⟩).is_priority = true →
      (rankedSpec.get ⟨0, by simp [rankedSpec]⟩).is_priority = true) ∧
    ((rankedSpec.get ⟨0, by simp [rankedSpec]⟩).is_priority =
        (rankedSpec.get ⟨1, by simp [rankedSpec]⟩).is_priority →
      (rankedSpec.get ⟨1, by simp [rankedSpec]⟩).revenue ≤
        (rankedSpec.get ⟨0, by simp [rankedSpec]⟩).revenue) :=
  C1_priority_ordering ddmmParse gridSpec "01.02.2024" rankedSpec
    analyze_gridSpec ⟨0, by simp [rankedSpec]⟩ ⟨1, by simp [rankedSpec]⟩
    (by norm_num [Fin.lt_def])

/-! ### Claim C9 -/

lemma coffee_filter_comm (rr : List AggregateRow)
    (hpt : ∀ a ∈ rr, is_priority_cell a.name = a.is_priority) :
    coffeeItems (rr.map toSave) =
      (rr.filter (fun a => a.is_priority)).map toSave := by
  induction rr with
  | nil => rfl
  | cons a rest ih =>
    have ha := hpt a (List.mem_cons_self a rest)
    have hrest := ih (fun b hb => hpt b (List.mem_cons_of_mem a hb))
    unfold coffeeItems at hrest ⊢
    simp only [List.map_cons, List.filter_cons]
    have hname : is_priority_cell (toSave a).name = a.is_priority := ha
    rw [hname]
    cases hp : a.is_priority
    · simpa [hp] using hrest
    · simpa [hp] using hrest

/-- C9: for every AggregateRow handed to the renderer, the classification
the renderer recomputes from the (normalised) name agrees with the
pipeline's `is_priority` flag that was dropped before rendering: a row
lands in the coffee section iff its flag was true. -/
theorem C9_renderer_agrees (parse : Cell → Option String)
    (grid : List (List Cell)) (d : String) (rr : List AggregateRow)
    (h : analyze_excel parse grid = Except.ok (d, rr)) :
    (∀ a ∈ rr, is_priority_cell a.name = a.is_priority) ∧
    coffeeItems (rr.map toSave) =
      (rr.filter (fun a => a.is_priority)).map toSave := by
  rcases analyze_ok_shape parse grid d rr h with ⟨i0, _, _, _, hrr⟩
  have hpt : ∀ a ∈ rr, is_priority_cell a.name = a.is_priority := by
    intro a ha
    have hmem : a ∈ aggregate (recordsOf ((grid.drop i0).headD [])
        ((grid.drop i0).drop 1)) := by
      rw [hrr] at ha
      exact (mem_rankReport a _).mp ha
    exact (aggregate_priority_eq _ a hmem).symm
  exact ⟨hpt, coffee_filter_comm rr hpt⟩

theorem C9_witness :
    (∀ a ∈ rankedSpec, is_priority_cell a.name = a.is_priority) ∧
    coffeeItems (rankedSpec.map toSave) =
      (rankedSpec.filter (fun a => a.is_priority)).map toSave :=
  C9_renderer_agrees ddmmParse gridSpec "01.02.2024" rankedSpec analyze_gridSpec

/-! ### Claim C7 -/

/-- C7 (amended): in every rendered table line the productName field is
left-aligned, padded on the right with spaces to 40 characters when
shorter, and NOT truncated when longer (the field occupies
`max 40 (length of the name)` characters); quantity and revenue are each
formatted with exactly two fraction digits; one line per AggregateRow in
ranked order. -/
theorem C7_fixed_width (w : Nat) (s : String) (q : ℚ) (r : SaveRow)
    (items : List SaveRow) :
    (padTo w s).length = max w s.length ∧
    tableLine r = padTo 40 (cellStr r.name) ++ " " ++
      padTo 12 (fmt2 r.quantity) ++ " " ++ fmt2 r.revenue ++ "\n" ∧
    (∃ u d₁ d₀, fmt2 q = u ++ "." ++ String.mk [d₁, d₀] ∧
      d₁.isDigit = true ∧ d₀.isDigit = true) ∧
    tableBlock items = String.join (items.map tableLine) := by
  refine ⟨?_, rfl, ?_, rfl⟩
  · rw [padTo, String.length_append]
    have hmk : (String.mk (List.replicate (w - s.length) ' ')).length
        = w - s.length := by
      rw [show (String.mk (List.replicate (w - s.length) ' ')).length
          = (List.replicate (w - s.length) ' ').length from rfl,
        List.length_replicate]
    rw [hmk]
    omega
  · refine ⟨(if roundHalfEven (q * 100) < 0 then "-" else "") ++
      toString ((roundHalfEven (q * 100)).natAbs / 100),
      Nat.digitChar ((roundHalfEven (q * 100)).natAbs % 100 / 10),
      Nat.digitChar ((roundHalfEven (q * 100)).natAbs % 10),
      rfl, ?_, ?_⟩
    · exact digitChar_isDigit _ (by omega)
    · exact digitChar_isDigit _ (by omega)

def longName : String := "ABCDEFGHIJKLMNOPQRSTUVWXYZabcdefghijklmno"

def longRow : SaveRow := { name := Cell.str longName, quantity := 1, revenue := 2 }

/-- C7 counterexample: a 41-character product name is NOT truncated — its
field occupies 41 characters in the rendered line, so the claim that the
field always occupies exactly 40 characters is false. -/
theorem C7_counterexample :
    longName.length = 41 ∧ padTo 40 longName = longName ∧
    tableLine longRow = longName ++ " " ++ padTo 12 "1.00" ++ " " ++
      "2.00" ++ "\n" := by
  have hc1 : roundHalfEven ((1 : ℚ) * 100) = 100 := by
    norm_num [roundHalfEven]
  have hc2 : roundHalfEven ((2 : ℚ) * 100) = 200 := by
    norm_num [roundHalfEven]
  have h1 : fmt2 (1 : ℚ) = "1.00" := by
    simp only [fmt2, hc1]
    decide
  have h2 : fmt2 (2 : ℚ) = "2.00" := by
    simp only [fmt2, hc2]
    decide
  refine ⟨by decide, by decide, ?_⟩
  rw [tableLine, longRow]
  simp only [h1, h2]
  decide

/-! ### Claim C8 -/

/-- C8 (amended): the report date is the literal "неизвестна" sentinel when
the date column is absent or all of its values are missing; when the first
non-missing value cannot be parsed, the date falls back to the raw value
(str-ed and stripped) rather than the sentinel; and date handling is
non-fatal: `analyze_excel` only ever fails with header-not-found or
missing-columns. -/
theorem C8_report_date (parse : Cell → Option String) (headers : List Cell)
    (rows : List (List Cell)) :
    (colIdx headers DATECOL = none →
      extractDate parse headers rows = UNKNOWN_DATE) ∧
    ((rows.map (fun r => colVal headers r DATECOL)).filter
        (fun c => !(c == Cell.empty)) = [] →
      extractDate parse headers rows = UNKNOWN_DATE) ∧
    (∀ v vs, (rows.map (fun r => colVal headers r DATECOL)).filter
        (fun c => !(c == Cell.empty)) = v :: vs →
      parse v = none →
      extractDate parse headers rows = trimStr (cellStr v)) ∧
    (∀ grid e, analyze_excel parse grid = Except.error e →
      e = AnalyzeError.headerNotFound ∨
        ∃ found, e = AnalyzeError.missingColumns found) := by
  refine ⟨?_, ?_, ?_, ?_⟩
  · intro h
    simp [extractDate, h]
  · intro h
    unfold extractDate
    rw [h]
    split <;> rfl
  · intro v vs hfilter hparse
    by_cases hcol : (colIdx headers DATECOL).isSome = true
    · unfold extractDate
      rw [if_pos hcol, hfilter]
      dsimp only
      rw [hparse]
    · exfalso
      have hnone : colIdx headers DATECOL = none :=
        Option.not_isSome_iff_eq_none.mp (by simpa using hcol)
      have hall : (rows.map (fun r => colVal headers r DATECOL)).filter
          (fun c => !(c == Cell.empty)) = [] := by
        rw [List.filter_eq_nil_iff]
        intro a ha
        rcases List.mem_map.mp ha with ⟨row, _, rfl⟩
        unfold colVal
        rw [hnone]
        simp
      rw [hall] at hfilter
      exact List.cons_ne_nil v vs hfilter.symm
  · intro grid e h
    unfold analyze_excel at h
    cases hf : findHeaderRow grid with
    | none =>
      rw [hf] at h
      have he : AnalyzeError.headerNotFound = e := by
        simpa using h
      exact Or.inl he.symm
    | some i =>
      rw [hf] at h
      dsimp only at h
      by_cases hreq : requiredPresent ((grid.drop i).headD []) = true
      · rw [if_pos hreq] at h
        simp at h
      · rw [if_neg hreq] at h
        have he : AnalyzeError.missingColumns ((grid.drop i).headD []) = e := by
          simpa using h
        exact Or.inr ⟨(grid.drop i).headD [], he.symm⟩

def grid8 : List (List Cell) :=
  [hdrSpec, [Cell.str "X", Cell.num 1, Cell.num 2, Cell.str "hello"]]

/-- C8 counterexample: with a date column whose first non-missing value is
the unparsable string "hello", the pipeline completes (no abort) but the
report date is the raw string "hello", not the "неизвестна" sentinel. -/
theorem C8_counterexample :
    analyze_excel noParse grid8 =
      Except.ok ("hello",
        [{ name := Cell.str "X", quantity := 1, revenue := 2,
           is_priority := false }]) ∧
    "hello" ≠ UNKNOWN_DATE := by
  constructor
  · norm_num +decide [analyze_excel, findHeaderRow, rowHasAnchor, colIdx, colVal,
      extractDate, requiredPresent, requiredCols, recordsOf, cleanRows, mkRecord,
      cellNum, aggregate, aggRow, groupKeys, rankReport, RankLE, round2,
      roundHalfEven, List.insertionSort, List.orderedInsert,
      List.dedup_cons_of_mem, List.dedup_cons_of_not_mem, List.dedup_nil,
      List.filter_cons, List.filter_nil, List.any_cons, List.any_nil,
      ANCHOR, QTYCOL, REVCOL, DATECOL, UNKNOWN_DATE, grid8, hdrSpec, noParse,
      beq_iff_eq, List.getD, Option.map, Option.isSome]
  · decide

theorem C8_witness : extractDate noParse [] [] = UNKNOWN_DATE :=
  (C8_report_date noParse [] []).1 rfl

/-! ### Claim C10 -/

/-- C10: in the rendered summary, the total count of priority units and
each per-item quantity in the composition string are integer-truncated
toward zero by `int()`, while the same quantities are formatted with two
decimal places in the table lines below. -/
theorem C10_int_truncation (d : String) (items : List SaveRow) (q : ℚ)
    (r : SaveRow) :
    format_sales_report d items =
      summaryTop d items ++ countLine items ++ summaryRest items ++
        tableBlock items ∧
    countLine items = "🔢 Всего продано кофейных напитков: " ++
      toString (pyInt (coffeeCount items)) ++ " шт.\n" ∧
    (coffeeItems items).map compositionPart = (coffeeItems items).map
      (fun r' => toString (pyInt r'.quantity) ++ " " ++ displayName r'.name) ∧
    tableLine r = padTo 40 (cellStr r.name) ++ " " ++
      padTo 12 (fmt2 r.quantity) ++ " " ++ fmt2 r.revenue ++ "\n" ∧
    (0 ≤ q → ((pyInt q : ℚ) ≤ q ∧ q < (pyInt q : ℚ) + 1)) ∧
    (q < 0 → (q ≤ (pyInt q : ℚ) ∧ (pyInt q : ℚ) < q + 1)) := by
  refine ⟨rfl, rfl, rfl, rfl, ?_, ?_⟩
  · intro hq
    rw [pyInt, if_pos hq]
    exact ⟨Int.floor_le q, Int.lt_floor_add_one q⟩
  · intro hq
    rw [pyInt, if_neg (not_le.mpr hq)]
    have hceil : -⌊-q⌋ = ⌈q⌉ := by
      rw [Int.floor_neg, neg_neg]
    rw [hceil]
    constructor
    · exact_mod_cast Int.le_ceil q
    · exact_mod_cast Int.ceil_lt_add_one q

theorem C10_witness :
    ((pyInt (5/2 : ℚ) : ℚ) ≤ 5/2 ∧ (5/2 : ℚ) < (pyInt (5/2 : ℚ) : ℚ) + 1) ∧
    ((-5/2 : ℚ) ≤ (pyInt (-5/2 : ℚ) : ℚ) ∧
      (pyInt (-5/2 : ℚ) : ℚ) < -5/2 + 1) :=
  ⟨(C10_int_truncation "d" [] (5/2)
      { name := Cell.str "X", quantity := 1, revenue := 2 }).2.2.2.2.1
    (by norm_num),
   (C10_int_truncation "d" [] (-5/2)
      { name := Cell.str "X", quantity := 1, revenue := 2 }).2.2.2.2.2
    (by norm_num)⟩
